import Mathlib

/-!
Verification development for the example-gallery script
`docs/examples/examples.py` of the three-cad-viewer repository.

The script builds small CAD models with external modeling libraries,
shows them in a viewer, and exports them to JavaScript scene files.
The pure logic that lives in the script itself (the `save` helper and
the `points` sampling helper of the torus-knot example) is embedded
directly from the source.  Behavior that the script only invokes in
external libraries (spline/line construction, compound/assembly
composition, fillet/chamfer, boolean cut, the file-writing export
utility, Python's error propagation) is modelled from the spec, as
marked on each such definition.
-/

namespace Gallery

/-- Python's `int()` applied to an exact rational: truncation toward zero. -/
def pyInt (q : ℚ) : ℤ := if 0 ≤ q then ⌊q⌋ else ⌈q⌉

/-- Python's `range(a, b)` as the list of integers `a, a+1, …, b-1` (empty when `b ≤ a`). -/
def pyRange (a b : ℤ) : List ℤ := (List.range (b - a).toNat).map (fun (i : ℕ) => a + (i : ℤ))

/-- The `points` helper of the torus-knot example:
`[body(t) for t in range(int(t0), int(t1 * samples))]`.
The loop body (a vector of three trigonometric expressions in `t / samples`)
is abstracted as `body`, applied to the integer loop variable `t`;
`knotBody` below is the concrete body of the source. -/
def points {V : Type} (body : ℤ → V) (t0 t1 : ℚ) (samples : ℤ) : List V :=
  (pyRange (pyInt t0) (pyInt (t1 * samples))).map body

/-- The loop body of `points` in the source, with the (floating-point)
`sin` and `cos` functions abstracted as rational-valued parameters:
`Vector(sa*(sin(t/samples) + 2*sin(2*t/samples)), sa*(cos(t/samples) - 2*cos(2*t/samples)), sa*(-sin(3*t/samples)))`
with `sa = 30`. -/
def knotBody (sinF cosF : ℚ → ℚ) (samples : ℤ) (t : ℤ) : ℚ × ℚ × ℚ :=
  (30 * (sinF ((t : ℚ) / (samples : ℚ)) + 2 * sinF (2 * (t : ℚ) / (samples : ℚ))),
   30 * (cosF ((t : ℚ) / (samples : ℚ)) - 2 * cosF (2 * (t : ℚ) / (samples : ℚ))),
   30 * (-(sinF (3 * (t : ℚ) / (samples : ℚ)))))

/-- The parameter values `t / samples` at which the loop body of `points`
evaluates its trigonometric expressions, in loop order. -/
def sampledParams (t0 t1 : ℚ) (samples : ℤ) : List ℚ :=
  (pyRange (pyInt t0) (pyInt (t1 * samples))).map (fun (t : ℤ) => (t : ℚ) / (samples : ℚ))

/-- The exact rational value of the Python float `2 * math.pi`
(`math.pi` is the IEEE-754 double nearest π; doubling it is exact). -/
def twoPiFloat : ℚ := 884279719003555 / 140737488355328

/-- The `save` helper of the script:
```
def save(name, obj, filename=None):
    if filename is None:
        filename = name
    export_three_cad_viewer_js(name.replace("-", "_"), obj, filename=f"{filename}.js")
```
Its observable output is the pair
(in-scene identifier passed as first argument to the export utility,
name of the file the export utility is asked to write).
Modelled from the spec for the external part: the export utility
(`export_three_cad_viewer_js`, not part of this repository) writes the
scene to exactly the file named by its `filename` argument. -/
def save (name : String) (filename : Option String) : String × String :=
  let fn := filename.getD name
  (name.replace "-" "_", fn ++ ".js")

theorem pyRange_length (a b : ℤ) : (pyRange a b).length = (b - a).toNat := by
  unfold pyRange
  rw [List.length_map, List.length_range]

theorem points_length {V : Type} (body : ℤ → V) (t0 t1 : ℚ) (samples : ℤ) :
    (points body t0 t1 samples).length = (pyInt (t1 * samples) - pyInt t0).toNat := by
  unfold points
  rw [List.length_map, pyRange_length]

theorem pyInt_twoPiFloat_mul_200 : pyInt (twoPiFloat * ((200 : ℤ) : ℚ)) = 1256 := by
  norm_num [pyInt, twoPiFloat]

theorem pyInt_zero : pyInt 0 = 0 := by norm_num [pyInt]

theorem pyInt_neg_two : pyInt (-2 : ℚ) = -2 := by
  rw [pyInt, if_neg (by norm_num)]
  rw [show ((-2 : ℚ)) = ((-2 : ℤ) : ℚ) by norm_num, Int.ceil_intCast]

theorem pyRange_pairwise (a b : ℤ) : (pyRange a b).Pairwise (fun x y => x < y) := by
  unfold pyRange
  rw [List.pairwise_map]
  exact (List.pairwise_lt_range _).imp (fun {x y} h => by omega)

theorem mem_pyRange {a b t : ℤ} : t ∈ pyRange a b ↔ a ≤ t ∧ t < b := by
  unfold pyRange
  rw [List.mem_map]
  constructor
  · rintro ⟨i, hi, rfl⟩
    rw [List.mem_range] at hi
    omega
  · intro h
    refine ⟨(t - a).toNat, ?_, ?_⟩
    · rw [List.mem_range]; omega
    · omega

theorem pyRange_getElem (a b : ℤ) (i : ℕ) (h : i < (pyRange a b).length) :
    (pyRange a b)[i] = a + (i : ℤ) := by
  simp [pyRange]

/-- C1: FALSE as stated, at the script's own call `save("image-face", f)`.
With no explicit filename the helper writes `image-face.js` — the base
name with its dash intact — not `image_face.js`.  The dash-to-underscore
replacement is applied only to the in-scene identifier (the first
argument of the export utility), never to the file name. -/
theorem save_dash_name_cex :
    (save "image-face" none).2 = "image-face.js" ∧
      (save "image-face" none).2 ≠ "image_face.js" := by
  refine ⟨rfl, ?_⟩
  decide

/-- C1 (amended): for every call `save(name, obj)` with no explicit
filename, the export helper writes the file `name + ".js"` with the base
name unchanged (dashes preserved), and passes `name` with every dash
replaced by an underscore as the in-scene identifier; for every call
`save(name, obj, filename=f)` it writes exactly `f + ".js"`. -/
theorem save_filename_amended (name f : String) :
    (save name none).2 = name ++ ".js" ∧
      (save name (some f)).2 = f ++ ".js" ∧
      (save name none).1 = name.replace "-" "_" ∧
      (save name (some f)).1 = name.replace "-" "_" :=
  ⟨rfl, rfl, rfl, rfl⟩

/-- C2: FALSE as stated.  The torus-knot call `points(0, 2*pi, 200)`
iterates `t` over `range(int(0), int(2*pi*200)) = range(0, 1256)` and so
yields 1256 points, not 200 (sample count and loop bound are conflated
in the source).  The loop body is irrelevant to the count; it is
instantiated here with the zero functions for `sin` and `cos`. -/
theorem torus_knot_count_cex :
    (points (knotBody (fun _ => 0) (fun _ => 0) 200) 0 twoPiFloat 200).length = 1256 ∧
      (points (knotBody (fun _ => 0) (fun _ => 0) 200) 0 twoPiFloat 200).length ≠ 200 := by
  have h := points_length (knotBody (fun _ => 0) (fun _ => 0) 200) 0 twoPiFloat 200
  rw [pyInt_twoPiFloat_mul_200, pyInt_zero] at h
  omega

/-- C2 (amended): the torus-knot call `points(0, 2*pi, 200)` (with scale
`a = 30` and the parametrization x(t) = a(sin(t/n) + 2 sin(2t/n)),
y(t) = a(cos(t/n) − 2 cos(2t/n)), z(t) = a(−sin(3t/n)) for `n = 200`)
yields a list of exactly `int(2π·200) = 1256` points, whose sampled
parameter values `t/200` for `t = 0, …, 1255` all lie in `[0, 2π)`. -/
theorem torus_knot_sampling_amended (sinF cosF : ℚ → ℚ) :
    (points (knotBody sinF cosF 200) 0 twoPiFloat 200).length = 1256 ∧
      ∀ q ∈ sampledParams 0 twoPiFloat 200, 0 ≤ (q : ℝ) ∧ (q : ℝ) < 2 * Real.pi := by
  constructor
  · have h := points_length (knotBody sinF cosF 200) 0 twoPiFloat 200
    rw [pyInt_twoPiFloat_mul_200, pyInt_zero] at h
    omega
  · intro q hq
    unfold sampledParams at hq
    rw [pyInt_twoPiFloat_mul_200, pyInt_zero] at hq
    obtain ⟨t, ht, rfl⟩ := List.mem_map.mp hq
    obtain ⟨ht0, ht1⟩ := mem_pyRange.mp ht
    have htR0 : (0 : ℝ) ≤ (t : ℝ) := by exact_mod_cast ht0
    have htR1 : (t : ℝ) ≤ 1255 := by exact_mod_cast Int.lt_add_one_iff.mp ht1
    have hpi : (3.141592 : ℝ) < Real.pi := Real.pi_gt_d6
    constructor
    · push_cast
      positivity
    · push_cast
      rw [div_lt_iff₀ (by norm_num : (0 : ℝ) < 200)]
      nlinarith

/-- Witness for the amended C2 theorem at concrete inputs: the first
sampled parameter value `0/200 = 0` is a member of the sampled-parameter
list and satisfies the `[0, 2π)` bounds. -/
theorem torus_knot_sampling_amended_witness :
    ((0 : ℚ) ∈ sampledParams 0 twoPiFloat 200) ∧
      (0 ≤ ((0 : ℚ) : ℝ) ∧ ((0 : ℚ) : ℝ) < 2 * Real.pi) := by
  have hm : (0 : ℚ) ∈ sampledParams 0 twoPiFloat 200 := by
    unfold sampledParams
    rw [pyInt_twoPiFloat_mul_200, pyInt_zero]
    exact List.mem_map.mpr ⟨0, mem_pyRange.mpr (by norm_num), by norm_num⟩
  exact ⟨hm, (torus_knot_sampling_amended (fun _ => 0) (fun _ => 0)).2 0 hm⟩

/-- C9: FALSE as stated: the claim quantifies over every `samples`, but
at `samples = 0` (with e.g. `t0 = -2`, `t1 = 0`, so that
`int(t0) = -2 ≤ 0 = int(t1·samples)` holds) the loop range is nonempty
and every iteration divides by zero, so the sampled parameter values are
not strictly increasing (in Python the call raises `ZeroDivisionError`
instead of returning a list at all; in this embedding, where division by
zero is total, the two parameter values coincide). -/
theorem points_sampling_cex :
    pyInt (-2 : ℚ) ≤ pyInt ((0 : ℚ) * ((0 : ℤ) : ℚ)) ∧
      ¬ (sampledParams (-2) 0 0).Pairwise (fun x y => x < y) := by
  have hz : (0 : ℚ) * ((0 : ℤ) : ℚ) = 0 := by norm_num
  have hr : pyRange (-2) 0 = [-2, -1] := by
    rw [pyRange, show ((0 : ℤ) - (-2)).toNat = 2 by decide]
    decide
  constructor
  · rw [pyInt_neg_two, hz, pyInt_zero]
    norm_num
  · intro hp
    have h2 : sampledParams (-2) 0 0 = [0, 0] := by
      rw [sampledParams, hz, pyInt_neg_two, pyInt_zero, hr]
      norm_num
    rw [h2] at hp
    exact absurd (List.rel_of_pairwise_cons hp (List.mem_singleton.mpr rfl)) (lt_irrefl 0)

/-- C9 (amended): for every `t0`, `t1` and every `samples ≥ 1` with
`int(t0) ≤ int(t1 · samples)`, `points(t0, t1, samples)` returns a list
of exactly `int(t1 · samples) − int(t0)` vectors, whose `i`-th element
is the loop body evaluated at `t = int(t0) + i` (i.e. the
parametrization at parameter value `(int(t0) + i) / samples`), and the
sampled parameter values are strictly increasing.  (At `samples = 0` the
code instead raises `ZeroDivisionError` whenever the range is
nonempty.) -/
theorem points_sampling_amended {V : Type} (body : ℤ → V) (t0 t1 : ℚ) (samples : ℤ)
    (hs : 1 ≤ samples) (h : pyInt t0 ≤ pyInt (t1 * samples)) :
    ((points body t0 t1 samples).length : ℤ) = pyInt (t1 * samples) - pyInt t0 ∧
      (∀ (i : ℕ) (hi : i < (points body t0 t1 samples).length),
        (points body t0 t1 samples).get ⟨i, hi⟩ = body (pyInt t0 + (i : ℤ))) ∧
      (sampledParams t0 t1 samples).Pairwise (fun x y => x < y) := by
  refine ⟨?_, ?_, ?_⟩
  · rw [points_length]
    omega
  · intro i hi
    have hi' : i < (pyRange (pyInt t0) (pyInt (t1 * samples))).length := by
      simpa [points] using hi
    simp only [points, List.get_eq_getElem, List.getElem_map]
    exact congrArg body (pyRange_getElem _ _ i hi')
  · unfold sampledParams
    rw [List.pairwise_map]
    refine (pyRange_pairwise _ _).imp ?_
    intro x y hxy
    have hsQ : (0 : ℚ) < (samples : ℚ) := by
      exact_mod_cast (by omega : (0 : ℤ) < samples)
    exact div_lt_div_of_pos_right (by exact_mod_cast hxy) hsQ

/-- Witness for the amended C9 theorem at `t0 = 0`, `t1 = 2`,
`samples = 3` with the identity loop body: both hypotheses hold and the
conclusion follows by instantiation. -/
theorem points_sampling_amended_witness :
    (1 ≤ (3 : ℤ)) ∧ (pyInt (0 : ℚ) ≤ pyInt ((2 : ℚ) * ((3 : ℤ) : ℚ))) ∧
      (((points (fun (t : ℤ) => t) 0 2 3).length : ℤ) =
          pyInt ((2 : ℚ) * ((3 : ℤ) : ℚ)) - pyInt (0 : ℚ) ∧
        (∀ (i : ℕ) (hi : i < (points (fun (t : ℤ) => t) 0 2 3).length),
          (points (fun (t : ℤ) => t) 0 2 3).get ⟨i, hi⟩ = pyInt (0 : ℚ) + (i : ℤ)) ∧
        (sampledParams 0 2 3).Pairwise (fun x y => x < y)) :=
  ⟨by norm_num, by norm_num [pyInt],
    points_sampling_amended (fun (t : ℤ) => t) 0 2 3 (by norm_num) (by norm_num [pyInt])⟩

theorem pyRange_head (a b : ℤ) (h : a < b) : (pyRange a b).head? = some a := by
  obtain ⟨m, hm⟩ : ∃ m, (b - a).toNat = m + 1 := ⟨(b - a).toNat - 1, by omega⟩
  unfold pyRange
  rw [List.head?_map, hm, List.range_succ_eq_map]
  simp

theorem pyRange_getLast (a b : ℤ) (h : a < b) : (pyRange a b).getLast? = some (b - 1) := by
  obtain ⟨m, hm⟩ : ∃ m, (b - a).toNat = m + 1 := ⟨(b - a).toNat - 1, by omega⟩
  unfold pyRange
  rw [List.getLast?_map, hm, List.range_succ, List.getLast?_concat]
  have : a + (m : ℤ) = b - 1 := by omega
  simp [this]

/-- An edge (curve segment) of the torus-knot example, reduced to the
data the example observes: its start point `p0` and end point `p1`. -/
structure EdgeM (V : Type) where
  p0 : V
  p1 : V

/-- Modelled from the spec (the `Spline` constructor is part of the
external modeling library, not of this repository): a non-periodic
spline built through a list of sampled points is a curve that starts at
the first sampled point and ends at the last sampled point. -/
def splineThrough {V : Type} [Inhabited V] (pts : List V) : EdgeM V :=
  ⟨(pts.head?).getD default, (pts.getLast?).getD default⟩

/-- Modelled from the spec (the `@` position operator is part of the
external modeling library): `e @ u` is the point of `e` at relative
position `u`; the example only uses the endpoint positions
`e @ 0` (start) and `e @ 1` (end). -/
def evalAt {V : Type} (e : EdgeM V) (u : ℚ) : V := if u = 1 then e.p1 else e.p0

/-- Modelled from the spec (the `Line` constructor is part of the
external modeling library): the straight segment from `a` to `b`. -/
def lineBetween {V : Type} (a b : V) : EdgeM V := ⟨a, b⟩

/-- The sampled point list `zz = points(0, 2 * pi, 200)` of the
torus-knot example, with the floating-point `sin`/`cos` abstracted. -/
def torusKnotPts (sinF cosF : ℚ → ℚ) : List (ℚ × ℚ × ℚ) :=
  points (knotBody sinF cosF 200) 0 twoPiFloat 200

/-- The spline `m1 = Spline(zz, periodic=False)` of the torus-knot example. -/
def torusKnotSpline (sinF cosF : ℚ → ℚ) : EdgeM (ℚ × ℚ × ℚ) :=
  splineThrough (torusKnotPts sinF cosF)

/-- The closing segment `m2 = Line(m1 @ 1, m1 @ 0)` of the torus-knot example. -/
def torusKnotClosing (sinF cosF : ℚ → ℚ) : EdgeM (ℚ × ℚ × ℚ) :=
  lineBetween (evalAt (torusKnotSpline sinF cosF) 1) (evalAt (torusKnotSpline sinF cosF) 0)

theorem torusKnotPts_head (sinF cosF : ℚ → ℚ) :
    (torusKnotPts sinF cosF).head? = some (knotBody sinF cosF 200 0) := by
  unfold torusKnotPts points
  rw [pyInt_twoPiFloat_mul_200, pyInt_zero, List.head?_map,
    pyRange_head 0 1256 (by norm_num)]
  rfl

theorem torusKnotPts_getLast (sinF cosF : ℚ → ℚ) :
    (torusKnotPts sinF cosF).getLast? = some (knotBody sinF cosF 200 1255) := by
  unfold torusKnotPts points
  rw [pyInt_twoPiFloat_mul_200, pyInt_zero, List.getLast?_map,
    pyRange_getLast 0 1256 (by norm_num)]
  rfl

/-- C3: the closing segment `m2 = Line(m1 @ 1, m1 @ 0)` of the
torus-knot example runs from the spline's end point — the last sampled
point, the loop body at `t = 1255` — back to the spline's start point —
the first sampled point, the loop body at `t = 0` — with exactly
matching endpoint coordinates, so spline plus closing segment form a
topologically closed wire (end of `m1` = start of `m2` and end of `m2`
= start of `m1`). -/
theorem torus_knot_closing_segment (sinF cosF : ℚ → ℚ) :
    (torusKnotClosing sinF cosF).p0 = knotBody sinF cosF 200 1255 ∧
      (torusKnotClosing sinF cosF).p1 = knotBody sinF cosF 200 0 ∧
      (torusKnotClosing sinF cosF).p0 = (torusKnotSpline sinF cosF).p1 ∧
      (torusKnotClosing sinF cosF).p1 = (torusKnotSpline sinF cosF).p0 := by
  have h1 : (torusKnotSpline sinF cosF).p1 = knotBody sinF cosF 200 1255 := by
    unfold torusKnotSpline splineThrough
    rw [torusKnotPts_getLast]
    rfl
  have h0 : (torusKnotSpline sinF cosF).p0 = knotBody sinF cosF 200 0 := by
    unfold torusKnotSpline splineThrough
    rw [torusKnotPts_head]
    rfl
  refine ⟨?_, ?_, ?_, ?_⟩ <;>
    simp [torusKnotClosing, lineBetween, evalAt, h0, h1]

/-- The shapes that appear in the faces/edges/vertices examples:
`box1` (the boolean-cut box reused from the Boxes example) and the
sub-shape selections taken from it. -/
inductive ShapeRef
  | box1
  | facesSel
  | edgesSel
  | verticesSel
deriving DecidableEq

/-- The association a viewer `show(s1, s2, names=[n1, n2])` call or an
`export_three_cad_viewer_js(s1, s2, names=[n1, n2], ...)` call makes
between its parallel shape and name lists: the i-th shape is displayed
under the i-th name. -/
def pairNames (shapes : List ShapeRef) (names : List String) : List (ShapeRef × String) :=
  shapes.zip names

/-- `show(box1, b, names=["box", "faces"])` of the faces example. -/
def facesShowCall : List (ShapeRef × String) :=
  pairNames [ShapeRef.box1, ShapeRef.facesSel] ["box", "faces"]

/-- `export_three_cad_viewer_js("faces", b, box1, names=["faces", "box"], ...)`. -/
def facesExportCall : List (ShapeRef × String) :=
  pairNames [ShapeRef.facesSel, ShapeRef.box1] ["faces", "box"]

/-- `show(box1, b, names=["box", "edges"])` of the edges example. -/
def edgesShowCall : List (ShapeRef × String) :=
  pairNames [ShapeRef.box1, ShapeRef.edgesSel] ["box", "edges"]

/-- `export_three_cad_viewer_js("edges", b, box1, names=["edges", "box"], ...)`. -/
def edgesExportCall : List (ShapeRef × String) :=
  pairNames [ShapeRef.edgesSel, ShapeRef.box1] ["edges", "box"]

/-- `show(box1, b, names=["box", "vertices"])` of the vertices example. -/
def verticesShowCall : List (ShapeRef × String) :=
  pairNames [ShapeRef.box1, ShapeRef.verticesSel] ["box", "vertices"]

/-- `export_three_cad_viewer_js("vertices", b, box1, names=["vertices", "box"], ...)`. -/
def verticesExportCall : List (ShapeRef × String) :=
  pairNames [ShapeRef.verticesSel, ShapeRef.box1] ["vertices", "box"]

/-- C10: in each of the three multi-shape examples the show call and the
export call list the two shapes in opposite orders but reorder the
parallel names list accordingly, so both calls make the same
shape-to-name association: `box1` is always paired with "box" and the
selected sub-shape with "faces"/"edges"/"vertices".  Stated as: each
show call's association list is a permutation of the corresponding
export call's, and `box1` is paired with "box" while the selection is
paired with its kind, in every call. -/
theorem multi_shape_name_pairing :
    facesShowCall.Perm facesExportCall ∧
      edgesShowCall.Perm edgesExportCall ∧
      verticesShowCall.Perm verticesExportCall ∧
      facesShowCall = [(ShapeRef.box1, "box"), (ShapeRef.facesSel, "faces")] ∧
      facesExportCall = [(ShapeRef.facesSel, "faces"), (ShapeRef.box1, "box")] ∧
      edgesShowCall = [(ShapeRef.box1, "box"), (ShapeRef.edgesSel, "edges")] ∧
      edgesExportCall = [(ShapeRef.edgesSel, "edges"), (ShapeRef.box1, "box")] ∧
      verticesShowCall = [(ShapeRef.box1, "box"), (ShapeRef.verticesSel, "vertices")] ∧
      verticesExportCall = [(ShapeRef.verticesSel, "vertices"), (ShapeRef.box1, "box")] := by
  refine ⟨?_, ?_, ?_, rfl, rfl, rfl, rfl, rfl, rfl⟩ <;> decide

/-- The working directory as a map from file names to file contents. -/
abbrev FileSys : Type := String → Option String

/-- Modelled from the spec: the export/conversion utility serializes the
given shapes and writes the result to the named file; the artifact is
"overwritten on re-run; never mutated incrementally". -/
def writeFile (fs : FileSys) (fname content : String) : FileSys :=
  fun n => if n = fname then some content else fs n

/-- One invocation of the script's `save` helper against a working
directory: the export utility (whose serialization of the object is
abstracted as `render`, applied to the in-scene identifier) writes to
the file name the helper computes. -/
def saveToFS (render : String → String) (fs : FileSys) (name : String)
    (filename : Option String) : FileSys :=
  writeFile fs (save name filename).2 (render (save name filename).1)

/-- C7: invoking the export helper twice with the same target name
overwrites: afterwards the working directory is exactly as if only the
second export had run, and the target file holds exactly the second
export's contents (`render2` of the in-scene identifier). -/
theorem export_overwrites (render1 render2 : String → String) (fs : FileSys)
    (name : String) (filename : Option String) :
    saveToFS render2 (saveToFS render1 fs name filename) name filename =
        saveToFS render2 fs name filename ∧
      saveToFS render2 (saveToFS render1 fs name filename) name filename
          (save name filename).2 =
        some (render2 (save name filename).1) := by
  constructor
  · funext n
    unfold saveToFS writeFile
    by_cases h : n = (save name filename).2 <;> simp [h]
  · unfold saveToFS writeFile
    simp

/-- The four failure kinds of the spec's error taxonomy. -/
inductive ExErr
  | invalidGeometry
  | emptySelection
  | missingExternalAsset
  | exportFailure
deriving DecidableEq

/-- One example cell: it may write export files into the working
directory and succeed, or fail with one of the four error kinds.  No
cell of the script contains any error handling. -/
abbrev Cell : Type := FileSys → Except ExErr FileSys

/-- Modelled from the spec: Python's sequential execution of the
script's cells with no handler anywhere: each cell runs to completion
before the next; the first failure halts the run at that point, with
the working directory exactly as the earlier cells left it. -/
def runCells : List Cell → FileSys → FileSys × Option ExErr
  | [], fs => (fs, none)
  | c :: cs, fs =>
    match c fs with
    | Except.ok fs2 => runCells cs fs2
    | Except.error e => (fs, some e)

/-- C8: if the cells before position k all succeed, turning the working
directory `fs0` into `fs1`, and cell k fails with any of the four error
kinds, then the whole script run halts there with exactly that error:
the cells after k never run (the result does not depend on them), and
the final working directory is `fs1` — every export file written by the
earlier cells is still on disk unchanged. -/
theorem script_halts_at_failure (pre : List Cell) (c : Cell) (post : List Cell)
    (fs0 fs1 : FileSys) (e : ExErr)
    (hpre : runCells pre fs0 = (fs1, none)) (hc : c fs1 = Except.error e) :
    runCells (pre ++ c :: post) fs0 = (fs1, some e) := by
  induction pre generalizing fs0 with
  | nil =>
    have h1 : fs0 = fs1 := congrArg Prod.fst hpre
    subst h1
    simp only [List.nil_append, runCells, hc]
  | cons c0 cs ih =>
    simp only [List.cons_append, runCells] at hpre ⊢
    cases h0 : c0 fs0 with
    | ok fs2 =>
      rw [h0] at hpre
      exact ih fs2 hpre
    | error e0 =>
      rw [h0] at hpre
      exact absurd (congrArg Prod.snd hpre) (by simp)

/-- Witness for C8 on a concrete three-cell script: the first cell
writes box.js, the second fails with an export failure, the third would
write boxes.js; the run halts at the failure and box.js is intact. -/
theorem script_halts_at_failure_witness :
    runCells [fun fs => Except.ok (writeFile fs "box.js" "scene1")] (fun _ => none) =
        (writeFile (fun _ => none) "box.js" "scene1", none) ∧
      (fun _ => Except.error ExErr.exportFailure : Cell)
          (writeFile (fun _ => none) "box.js" "scene1") =
        Except.error ExErr.exportFailure ∧
      runCells
          ([fun fs => Except.ok (writeFile fs "box.js" "scene1")] ++
            (fun _ => Except.error ExErr.exportFailure) ::
              [fun fs => Except.ok (writeFile fs "boxes.js" "scene2")])
          (fun _ => none) =
        (writeFile (fun _ => none) "box.js" "scene1", some ExErr.exportFailure) :=
  ⟨rfl, rfl,
    script_halts_at_failure
      [fun fs => Except.ok (writeFile fs "box.js" "scene1")]
      (fun _ => Except.error ExErr.exportFailure)
      [fun fs => Except.ok (writeFile fs "boxes.js" "scene2")]
      (fun _ => none) (writeFile (fun _ => none) "box.js" "scene1")
      ExErr.exportFailure rfl rfl⟩

/-- A display color as the examples assign it: a named color, a hex
string, a hex string with an alpha value, or an RGB triple. -/
inductive ColorV
  | named (s : String)
  | hexa (s : String)
  | hexAlpha (s : String) (alpha : ℚ)
  | rgb (r g b : ℕ)
deriving DecidableEq

/-- The display metadata of one solid of the assembly example: its
`label` and optional `color` fields as assigned in the script. -/
structure SolidRec where
  label : String
  color : Option ColorV
deriving DecidableEq

/-- Modelled from the spec: a Compound is a labeled collection of solids
and/or nested compounds, grouping its children "while preserving each
child's own label/color"; constructing one stores the children exactly
as given. -/
inductive CTree
  | solid (s : SolidRec)
  | compound (label : String) (children : List CTree)

/-- Querying the children of a compound from the parent returns the
stored children unchanged (a plain solid has none). -/
def childrenOf : CTree → List CTree
  | CTree.solid _ => []
  | CTree.compound _ cs => cs

/-- `s1`: box, labeled "box", colored "red". -/
def s1 : SolidRec := ⟨"box", some (ColorV.named "red")⟩

/-- `s2`: cone, labeled "cone", colored "green". -/
def s2 : SolidRec := ⟨"cone", some (ColorV.named "green")⟩

/-- `s3`: cylinder, labeled "cylinder", colored "blue". -/
def s3 : SolidRec := ⟨"cylinder", some (ColorV.named "blue")⟩

/-- `s4`: sphere, labeled "sphere", no color assigned. -/
def s4 : SolidRec := ⟨"sphere", none⟩

/-- `s5`: torus, labeled "torus", colored "cyan". -/
def s5 : SolidRec := ⟨"torus", some (ColorV.named "cyan")⟩

/-- `c2 = Compound(label="c2", children=[s2, s3])`. -/
def c2 : CTree := CTree.compound "c2" [CTree.solid s2, CTree.solid s3]

/-- `c3 = Compound(label="c3", children=[s4, s5])`. -/
def c3 : CTree := CTree.compound "c3" [CTree.solid s4, CTree.solid s5]

/-- `c1 = Compound(label="c1", children=[s1, c2, c3])`. -/
def c1 : CTree := CTree.compound "c1" [CTree.solid s1, c2, c3]

/-- One child entry of a cadquery-style assembly: the added object's own
`name` attribute, the per-entry display name, and the per-entry color
given in the `add` call. -/
structure AsmChild where
  objName : String
  entryName : String
  color : Option ColorV
deriving DecidableEq

/-- A cadquery-style assembly: its name and its added children. -/
structure AssemblyM where
  name : String
  children : List AsmChild
deriving DecidableEq

/-- Modelled from the spec: `assembly.add(obj, name=…, color=…)` appends
a child entry, recording the object (whose own attributes it does not
touch) together with the entry name and color. -/
def asmAdd (a : AssemblyM) (c : AsmChild) : AssemblyM := ⟨a.name, a.children ++ [c]⟩

/-- The entry `add(box1, name="red box", color=Color("#d7191c", 0.5))`;
`box1.name` was set to "box1" before the add. -/
def box1Entry : AsmChild := ⟨"box1", "red box", some (ColorV.hexAlpha "#d7191c" (1 / 2))⟩

/-- The entry `add(box3, name="green box", color=Color("#abdda4"))`. -/
def box3Entry : AsmChild := ⟨"box3", "green box", some (ColorV.hexa "#abdda4")⟩

/-- The entry `add(box4, name="blue box", color=Color((43, 131, 186)))`. -/
def box4Entry : AsmChild := ⟨"box4", "blue box", some (ColorV.rgb 43 131 186)⟩

/-- `a1 = Assembly(name="ensemble").add(box1, …).add(box3, …).add(box4, …)`. -/
def a1 : AssemblyM :=
  asmAdd (asmAdd (asmAdd ⟨"ensemble", []⟩ box1Entry) box3Entry) box4Entry

/-- C4: composing the labeled/colored solids s1–s5 into the compounds
c1–c3, and the colored boxes into the assembly "ensemble", preserves
every child's label and color: querying the children from each parent
returns exactly the solids with the labels and colors assigned before
the composition, and the assembly's entries carry exactly the names and
colors given in the add calls, with each added object's own name
("box1" etc.) untouched. -/
theorem composition_preserves_labels_and_colors :
    childrenOf c1 = [CTree.solid s1, c2, c3] ∧
      childrenOf c2 = [CTree.solid s2, CTree.solid s3] ∧
      childrenOf c3 = [CTree.solid s4, CTree.solid s5] ∧
      s1.label = "box" ∧ s1.color = some (ColorV.named "red") ∧
      s2.label = "cone" ∧ s2.color = some (ColorV.named "green") ∧
      s3.label = "cylinder" ∧ s3.color = some (ColorV.named "blue") ∧
      s4.label = "sphere" ∧ s4.color = none ∧
      s5.label = "torus" ∧ s5.color = some (ColorV.named "cyan") ∧
      a1.name = "ensemble" ∧
      a1.children = [box1Entry, box3Entry, box4Entry] ∧
      box1Entry.objName = "box1" ∧ box1Entry.entryName = "red box" ∧
      box1Entry.color = some (ColorV.hexAlpha "#d7191c" (1 / 2)) ∧
      box3Entry.color = some (ColorV.hexa "#abdda4") ∧
      box4Entry.color = some (ColorV.rgb 43 131 186) :=
  ⟨rfl, rfl, rfl, rfl, rfl, rfl, rfl, rfl, rfl, rfl, rfl, rfl, rfl, rfl, rfl, rfl, rfl,
    rfl, rfl, rfl⟩

/-- A principal axis, used by the directional edge filters. -/
inductive AxisM
  | X
  | Y
  | Z
deriving DecidableEq

/-- One edge of a shape, identified by a tag and carrying the axis it is
parallel to (the only attribute the examples' filters inspect). -/
structure EdgeRec where
  tag : ℕ
  dir : AxisM
deriving DecidableEq

/-- A shape's edge inventory: the edges still in their original
(unmodified) form, the edges replaced by fillet rounds (with radius),
and the edges replaced by chamfer bevels (with distance). -/
structure ShapeEdges where
  plain : List EdgeRec
  rounded : List (EdgeRec × ℚ)
  beveled : List (EdgeRec × ℚ)
deriving DecidableEq

/-- Modelled from the spec: `fillet` rounds the edge set selected by the
preceding filter by the given radius, and "must apply only to the
selected subset and leave other edges unchanged": the selected plain
edges become rounds of radius `r`; every unselected edge and every
previously modified edge is untouched. -/
def filletSel (s : ShapeEdges) (sel : EdgeRec → Bool) (r : ℚ) : ShapeEdges :=
  ⟨s.plain.filter (fun e => !(sel e)),
   s.rounded ++ (s.plain.filter sel).map (fun e => (e, r)),
   s.beveled⟩

/-- Modelled from the spec: `chamfer` bevels the selected edge set by
the given distance, leaving all other edges unchanged. -/
def chamferSel (s : ShapeEdges) (sel : EdgeRec → Bool) (d : ℚ) : ShapeEdges :=
  ⟨s.plain.filter (fun e => !(sel e)),
   s.rounded,
   s.beveled ++ (s.plain.filter sel).map (fun e => (e, d))⟩

/-- The twelve edges of the 10×20×30 box of the "box" example: four
parallel to each principal axis. -/
def boxEdges : List EdgeRec :=
  [⟨0, AxisM.X⟩, ⟨1, AxisM.X⟩, ⟨2, AxisM.X⟩, ⟨3, AxisM.X⟩,
   ⟨4, AxisM.Y⟩, ⟨5, AxisM.Y⟩, ⟨6, AxisM.Y⟩, ⟨7, AxisM.Y⟩,
   ⟨8, AxisM.Z⟩, ⟨9, AxisM.Z⟩, ⟨10, AxisM.Z⟩, ⟨11, AxisM.Z⟩]

/-- The 10×20×30 box before any fillet: all edges plain. -/
def boxShape : ShapeEdges := ⟨boxEdges, [], []⟩

/-- The `edges("|Y or |Z")` filter: edges parallel to the Y or Z axis. -/
def selYorZ (e : EdgeRec) : Bool := e.dir == AxisM.Y || e.dir == AxisM.Z

/-- The `filter_by(Axis.X)` filter of the drops example. -/
def selX (e : EdgeRec) : Bool := e.dir == AxisM.X

/-- The `filter_by(Axis.Y)` filter of the drops example. -/
def selY (e : EdgeRec) : Bool := e.dir == AxisM.Y

theorem filter_dir_filter_not_sel (l : List EdgeRec) (sel : EdgeRec → Bool) (a : AxisM)
    (h : ∀ e : EdgeRec, e.dir == a → sel e = false) :
    ((l.filter (fun e => !(sel e))).filter (fun e => e.dir == a)) =
      l.filter (fun e => e.dir == a) := by
  induction l with
  | nil => rfl
  | cons x xs ih =>
    by_cases hx : (x.dir == a) = true
    · rw [List.filter_cons, if_pos (by simp [h x hx]), List.filter_cons, if_pos hx,
        List.filter_cons, if_pos hx, ih]
    · rw [List.filter_cons]
      by_cases hs : sel x
      · rw [if_neg (by simp [hs]), List.filter_cons, if_neg (by simpa using hx), ih]
      · rw [if_pos (by simp [hs]), List.filter_cons, if_neg (by simpa using hx),
          List.filter_cons, if_neg (by simpa using hx), ih]

/-- C5: a fillet or chamfer on a filtered edge selection modifies only
the selected edges: the unmodified-edge inventory of the result is
exactly the unselected edges, unchanged, and the other modified-edge
inventories are untouched.  Concretely, the fillet of radius 2 on the
`"|Y or |Z"` edges of the 10×20×30 box keeps its four X-parallel edges
exactly; filleting only the Y-parallel edges of any shape alters no
edge parallel to X or Z; and the drops example's fillet (radius 0.3 on
the X-parallel edges) followed by chamfer (distance 0.1 on the
Y-parallel edges) leaves the Z-parallel edges of any shape unchanged. -/
theorem fillet_chamfer_frame :
    (∀ (s : ShapeEdges) (sel : EdgeRec → Bool) (r : ℚ),
      (filletSel s sel r).plain = s.plain.filter (fun e => !(sel e)) ∧
        (filletSel s sel r).beveled = s.beveled ∧
        (chamferSel s sel r).plain = s.plain.filter (fun e => !(sel e)) ∧
        (chamferSel s sel r).rounded = s.rounded) ∧
      (filletSel boxShape selYorZ 2).plain =
        [⟨0, AxisM.X⟩, ⟨1, AxisM.X⟩, ⟨2, AxisM.X⟩, ⟨3, AxisM.X⟩] ∧
      (∀ s : ShapeEdges,
        (filletSel s selY 2).plain.filter (fun e => e.dir == AxisM.X) =
            s.plain.filter (fun e => e.dir == AxisM.X) ∧
          (filletSel s selY 2).plain.filter (fun e => e.dir == AxisM.Z) =
            s.plain.filter (fun e => e.dir == AxisM.Z)) ∧
      (∀ s : ShapeEdges,
        (chamferSel (filletSel s selX (3 / 10)) selY (1 / 10)).plain.filter
            (fun e => e.dir == AxisM.Z) =
          s.plain.filter (fun e => e.dir == AxisM.Z)) := by
  have hYX : ∀ e : EdgeRec, (e.dir == AxisM.X) = true → selY e = false := by
    intro e he
    have hd : e.dir = AxisM.X := by simpa using he
    simp [selY, hd]
  have hYZ : ∀ e : EdgeRec, (e.dir == AxisM.Z) = true → selY e = false := by
    intro e he
    have hd : e.dir = AxisM.Z := by simpa using he
    simp [selY, hd]
  have hXZ : ∀ e : EdgeRec, (e.dir == AxisM.Z) = true → selX e = false := by
    intro e he
    have hd : e.dir = AxisM.Z := by simpa using he
    simp [selX, hd]
  refine ⟨fun s sel r => ⟨rfl, rfl, rfl, rfl⟩, by decide, ?_, ?_⟩
  · intro s
    exact ⟨filter_dir_filter_not_sel s.plain selY AxisM.X hYX,
      filter_dir_filter_not_sel s.plain selY AxisM.Z hYZ⟩
  · intro s
    calc (chamferSel (filletSel s selX (3 / 10)) selY (1 / 10)).plain.filter
          (fun e => e.dir == AxisM.Z)
        = (filletSel s selX (3 / 10)).plain.filter (fun e => e.dir == AxisM.Z) :=
          filter_dir_filter_not_sel (filletSel s selX (3 / 10)).plain selY AxisM.Z hYZ
      _ = s.plain.filter (fun e => e.dir == AxisM.Z) :=
          filter_dir_filter_not_sel s.plain selX AxisM.Z hXZ

/-- Modelled from the spec: a solid of the Boxes example as the set of
points of space it occupies, together with its validity status — per the
spec's glossary a (valid) Solid is "a single watertight three-dimensional
shape". -/
structure SolidGeo where
  pts : Set (ℝ × ℝ × ℝ)
  watertight : Bool

/-- Modelled from the spec: the boolean `cut` removes the second solid's
points from the first ("subtraction/cut"), "preserving the combined
shape's validity". -/
def cutGeo (a b : SolidGeo) : SolidGeo := ⟨a.pts \ b.pts, a.watertight⟩

/-- C6: for the subtraction chain `box1.cut(box2).cut(box3).cut(box4)`,
the removed regions — the part of box1 inside box2, the part of the
remainder inside box3, and the part of that remainder inside box4 — are
pairwise non-overlapping, and the result's volume equals box1's volume
minus the volumes of those removed regions (stated both in exact
additive form and in subtraction form); and the result is still a
single valid watertight solid exactly when box1 was.  Stated for
arbitrary solids with measurable point sets, box1 of finite volume,
covering the Boxes example. -/
theorem cut_chain_volume (b1 b2 b3 b4 : SolidGeo)
    (h2 : MeasurableSet b2.pts) (h3 : MeasurableSet b3.pts) (h4 : MeasurableSet b4.pts)
    (hfin : MeasureTheory.volume b1.pts ≠ ⊤) :
    MeasureTheory.volume (cutGeo (cutGeo (cutGeo b1 b2) b3) b4).pts +
          MeasureTheory.volume (((b1.pts \ b2.pts) \ b3.pts) ∩ b4.pts) +
          MeasureTheory.volume ((b1.pts \ b2.pts) ∩ b3.pts) +
          MeasureTheory.volume (b1.pts ∩ b2.pts) =
        MeasureTheory.volume b1.pts ∧
      MeasureTheory.volume (cutGeo (cutGeo (cutGeo b1 b2) b3) b4).pts =
        MeasureTheory.volume b1.pts -
          (MeasureTheory.volume (b1.pts ∩ b2.pts) +
            MeasureTheory.volume ((b1.pts \ b2.pts) ∩ b3.pts) +
            MeasureTheory.volume (((b1.pts \ b2.pts) \ b3.pts) ∩ b4.pts)) ∧
      Disjoint (b1.pts ∩ b2.pts) ((b1.pts \ b2.pts) ∩ b3.pts) ∧
      Disjoint (b1.pts ∩ b2.pts) (((b1.pts \ b2.pts) \ b3.pts) ∩ b4.pts) ∧
      Disjoint ((b1.pts \ b2.pts) ∩ b3.pts) (((b1.pts \ b2.pts) \ b3.pts) ∩ b4.pts) ∧
      (cutGeo (cutGeo (cutGeo b1 b2) b3) b4).watertight = b1.watertight := by
  have e1 : MeasureTheory.volume (b1.pts ∩ b2.pts) +
        MeasureTheory.volume (b1.pts \ b2.pts) = MeasureTheory.volume b1.pts :=
    MeasureTheory.measure_inter_add_diff b1.pts h2
  have e2 : MeasureTheory.volume ((b1.pts \ b2.pts) ∩ b3.pts) +
        MeasureTheory.volume ((b1.pts \ b2.pts) \ b3.pts) =
      MeasureTheory.volume (b1.pts \ b2.pts) :=
    MeasureTheory.measure_inter_add_diff (b1.pts \ b2.pts) h3
  have e3 : MeasureTheory.volume (((b1.pts \ b2.pts) \ b3.pts) ∩ b4.pts) +
        MeasureTheory.volume (((b1.pts \ b2.pts) \ b3.pts) \ b4.pts) =
      MeasureTheory.volume ((b1.pts \ b2.pts) \ b3.pts) :=
    MeasureTheory.measure_inter_add_diff ((b1.pts \ b2.pts) \ b3.pts) h4
  have g1 : MeasureTheory.volume (cutGeo (cutGeo (cutGeo b1 b2) b3) b4).pts +
        MeasureTheory.volume (((b1.pts \ b2.pts) \ b3.pts) ∩ b4.pts) +
        MeasureTheory.volume ((b1.pts \ b2.pts) ∩ b3.pts) +
        MeasureTheory.volume (b1.pts ∩ b2.pts) =
      MeasureTheory.volume b1.pts := by
    show MeasureTheory.volume (((b1.pts \ b2.pts) \ b3.pts) \ b4.pts) +
        MeasureTheory.volume (((b1.pts \ b2.pts) \ b3.pts) ∩ b4.pts) +
        MeasureTheory.volume ((b1.pts \ b2.pts) ∩ b3.pts) +
        MeasureTheory.volume (b1.pts ∩ b2.pts) =
      MeasureTheory.volume b1.pts
    rw [← e1, ← e2, ← e3]
    ring
  have hr2 : MeasureTheory.volume (b1.pts ∩ b2.pts) ≠ ⊤ :=
    ne_top_of_le_ne_top hfin (MeasureTheory.measure_mono Set.inter_subset_left)
  have hr3 : MeasureTheory.volume ((b1.pts \ b2.pts) ∩ b3.pts) ≠ ⊤ :=
    ne_top_of_le_ne_top hfin
      (MeasureTheory.measure_mono (Set.inter_subset_left.trans Set.diff_subset))
  have hr4 : MeasureTheory.volume (((b1.pts \ b2.pts) \ b3.pts) ∩ b4.pts) ≠ ⊤ :=
    ne_top_of_le_ne_top hfin
      (MeasureTheory.measure_mono
        (Set.inter_subset_left.trans (Set.diff_subset.trans Set.diff_subset)))
  refine ⟨g1, ?_, ?_, ?_, ?_, rfl⟩
  · refine ENNReal.eq_sub_of_add_eq
      (ENNReal.add_ne_top.mpr ⟨ENNReal.add_ne_top.mpr ⟨hr2, hr3⟩, hr4⟩) ?_
    rw [← g1]
    ring
  · refine Set.disjoint_left.mpr ?_
    rintro x ⟨-, hxB2⟩ ⟨⟨-, hnB2⟩, -⟩
    exact hnB2 hxB2
  · refine Set.disjoint_left.mpr ?_
    rintro x ⟨-, hxB2⟩ ⟨⟨⟨-, hnB2⟩, -⟩, -⟩
    exact hnB2 hxB2
  · refine Set.disjoint_left.mpr ?_
    rintro x ⟨-, hxB3⟩ ⟨⟨-, hnB3⟩, -⟩
    exact hnB3 hxB3

/-- A unit cube standing in for box1 in the C6 witness. -/
def cubeSolid : SolidGeo :=
  ⟨Set.Icc (0 : ℝ) 1 ×ˢ Set.Icc (0 : ℝ) 1 ×ˢ Set.Icc (0 : ℝ) 1, true⟩

/-- The empty solid standing in for the cutters in the C6 witness. -/
def emptySolid : SolidGeo := ⟨∅, true⟩

/-- Witness for C6 at a concrete instance: box1 a unit cube (measurable,
finite volume), the three cutters empty (measurable); all hypotheses are
discharged and the conclusion follows by instantiation. -/
theorem cut_chain_volume_witness :
    MeasurableSet emptySolid.pts ∧
      MeasureTheory.volume cubeSolid.pts ≠ ⊤ ∧
      (MeasureTheory.volume (cutGeo (cutGeo (cutGeo cubeSolid emptySolid) emptySolid) emptySolid).pts +
            MeasureTheory.volume
              (((cubeSolid.pts \ emptySolid.pts) \ emptySolid.pts) ∩ emptySolid.pts) +
            MeasureTheory.volume ((cubeSolid.pts \ emptySolid.pts) ∩ emptySolid.pts) +
            MeasureTheory.volume (cubeSolid.pts ∩ emptySolid.pts) =
          MeasureTheory.volume cubeSolid.pts ∧
        MeasureTheory.volume (cutGeo (cutGeo (cutGeo cubeSolid emptySolid) emptySolid) emptySolid).pts =
          MeasureTheory.volume cubeSolid.pts -
            (MeasureTheory.volume (cubeSolid.pts ∩ emptySolid.pts) +
              MeasureTheory.volume ((cubeSolid.pts \ emptySolid.pts) ∩ emptySolid.pts) +
              MeasureTheory.volume
                (((cubeSolid.pts \ emptySolid.pts) \ emptySolid.pts) ∩ emptySolid.pts)) ∧
        Disjoint (cubeSolid.pts ∩ emptySolid.pts)
          ((cubeSolid.pts \ emptySolid.pts) ∩ emptySolid.pts) ∧
        Disjoint (cubeSolid.pts ∩ emptySolid.pts)
          (((cubeSolid.pts \ emptySolid.pts) \ emptySolid.pts) ∩ emptySolid.pts) ∧
        Disjoint ((cubeSolid.pts \ emptySolid.pts) ∩ emptySolid.pts)
          (((cubeSolid.pts \ emptySolid.pts) \ emptySolid.pts) ∩ emptySolid.pts) ∧
        (cutGeo (cutGeo (cutGeo cubeSolid emptySolid) emptySolid) emptySolid).watertight =
          cubeSolid.watertight) := by
  have hme : MeasurableSet emptySolid.pts := MeasurableSet.empty
  have hfin : MeasureTheory.volume cubeSolid.pts ≠ ⊤ :=
    ((isCompact_Icc.prod (isCompact_Icc.prod isCompact_Icc)).measure_lt_top).ne
  exact ⟨hme, hfin, cut_chain_volume cubeSolid emptySolid emptySolid emptySolid hme hme hme hfin⟩

end Gallery
